import Mathlib

/-!
Verification of the kv-cal-agent orchestration core.

The development shallowly embeds the repository's conflict-detection module
(src/conflict.ts), the tool catalog's error boundary (src/tools.ts) and the
LangGraph state machine of src/agent.ts.  Timestamps (JS Date values) are
modelled as integers; the database table of events is modelled as the list of
rows the select would scan, and the drizzle where-clause becomes a filter.
-/

namespace KvCal

/-- A stored event row, restricted to the five columns selected by the
conflict query in src/conflict.ts: id, title, startTime, endTime, location. -/
structure StoredEvent where
  id : Int
  title : String
  startTime : Int
  endTime : Int
  location : Option String
deriving DecidableEq, Repr

/-- The result channels of the conflict-detection subgraph state:
conflicts, hasConflicts, message (src/conflict.ts, ConflictState). -/
structure ConflictResult where
  conflicts : List StoredEvent
  hasConflicts : Bool
  message : String
deriving DecidableEq, Repr

/-- JavaScript truthiness of the optional numeric excludeEventId, as tested by
the bare condition of the exclusion branch in src/conflict.ts: undefined and 0
are falsy, every other number is truthy. -/
def jsTruthy : Option Int → Bool
  | none => false
  | some n => n != 0

/-- The where-clause built in src/conflict.ts: always
gte(events.endTime, startTime) and lte(events.startTime, endTime), and, only
when excludeEventId is truthy, additionally ne(events.id, excludeEventId). -/
def overlapCond (startTime endTime : Int) (excludeEventId : Option Int)
    (ev : StoredEvent) : Bool :=
  decide (ev.endTime ≥ startTime) && decide (ev.startTime ≤ endTime) &&
    (if jsTruthy excludeEventId then decide (ev.id ≠ excludeEventId.getD 0) else true)

/-- The select over the events table with the conjunction of the conditions:
the rows satisfying the where-clause, in table order. -/
def findOverlapping (store : List StoredEvent) (startTime endTime : Int)
    (excludeEventId : Option Int) : List StoredEvent :=
  store.filter (overlapCond startTime endTime excludeEventId)

/-- One enumerated line of the conflict message built in src/conflict.ts:
two-space indent, dash, quoted title, the time range in parentheses, the
location appended after " at " only when present, then a newline.  The JS
code renders the two Date values with toLocaleString; the embedding renders
the integer instants with toString. -/
def renderConflictLine (ev : StoredEvent) : String :=
  "  - \"" ++ ev.title ++ "\" (" ++ toString ev.startTime ++ " - "
    ++ toString ev.endTime ++ ")"
    ++ (match ev.location with
        | some loc => " at " ++ loc
        | none => "")
    ++ "\n"

/-- The count-prefixed header of the conflict message in src/conflict.ts. -/
def conflictHeader (n : Nat) : String :=
  "⚠️  Found " ++ toString n ++ " conflicting event(s):\n"

namespace Conflict

/-- The single node of the conflict-detection subgraph
(checkConflicts in src/conflict.ts): query the overlapping events, set
hasConflicts to whether the result is non-empty, and build the message by
appending one rendered line per conflicting event to the header (the forEach
accumulation is a left fold), or the fixed no-conflicts text. -/
def checkConflicts (store : List StoredEvent) (startTime endTime : Int)
    (excludeEventId : Option Int) : ConflictResult :=
  let conflictingEvents := findOverlapping store startTime endTime excludeEventId
  let hasConflicts := decide (conflictingEvents.length > 0)
  let message :=
    if hasConflicts then
      conflictingEvents.foldl (fun acc ev => acc ++ renderConflictLine ev)
        (conflictHeader conflictingEvents.length)
    else
      "✓ No conflicts found"
  { conflicts := conflictingEvents, hasConflicts := hasConflicts, message := message }

end Conflict

/-- detectConflicts in src/conflict.ts: invoke the one-node subgraph
(start edge to the check node, then END) on the initial channel values and
return the resulting hasConflicts, conflicts and message; the node's output
replaces every initial channel value. -/
def detectConflicts (store : List StoredEvent) (startTime endTime : Int)
    (excludeEventId : Option Int) : ConflictResult :=
  let result := Conflict.checkConflicts store startTime endTime excludeEventId
  { conflicts := result.conflicts
    hasConflicts := result.hasConflicts
    message := result.message }

/-- The invocation of the conflict subroutine together with the storage it
leaves behind: the node only reads the events table (a select), so the store
is returned unchanged.  Models one call of detectConflicts against a database
snapshot. -/
def detectConflictsRun (store : List StoredEvent) (startTime endTime : Int)
    (excludeEventId : Option Int) : ConflictResult × List StoredEvent :=
  (detectConflicts store startTime endTime excludeEventId, store)

/-- The check_event_conflicts tool of src/tools.ts on the success path: call
detectConflicts with the parsed instants and return the rendered message as
the tool's result content. -/
def checkEventConflictsTool (store : List StoredEvent) (startTime endTime : Int)
    (excludeEventId : Option Int) : String :=
  (detectConflicts store startTime endTime excludeEventId).message

/-- Rendering of a conflict list in the shape the spec describes: the lines of
the enumeration, one rendered event per line, concatenated in order. -/
def specLines : List StoredEvent → String
  | [] => ""
  | ev :: rest => renderConflictLine ev ++ specLines rest

/-! The tool catalog and its error boundary (src/tools.ts).

Every tool body in src/tools.ts is one try/catch: the try block performs the
tool's work and returns its textual result, and the catch block returns the
tool-specific error prefix followed by the thrown error's message, or
"Unknown error" when the thrown value is not an Error instance.  The inner
work touches the database, so the embedding abstracts it as an outcome value:
ok with the result text, or error with the optional thrown message. -/

/-- A catalog entry: the registered tool name and the error prefix its catch
branch uses (the text before the colon in the returned error string). -/
structure ToolDef where
  name : String
  errPrefix : String
deriving DecidableEq, Repr

/-- The rendering of a caught thrown value in every catch branch of
src/tools.ts: the Error instance's message, or the fixed fallback text. -/
def errorText : Option String → String
  | some msg => msg
  | none => "Unknown error"

/-- The try/catch boundary wrapped around every tool body in src/tools.ts: a
successful body yields its result text, a thrown failure is caught and turned
into the tool's prefixed textual error result.  The return type is String, so
no outcome escapes the boundary as a fault. -/
def runToolBoundary (t : ToolDef) (body : Except (Option String) String) : String :=
  match body with
  | .ok s => s
  | .error err => t.errPrefix ++ ": " ++ errorText err

/-- The allTools array exported by src/tools.ts, as the registered names
paired with each tool's catch-branch error prefix, in export order. -/
def allTools : List ToolDef :=
  [ { name := "check_event_conflicts", errPrefix := "Error checking conflicts" }
  , { name := "create_event_type", errPrefix := "Error creating event type" }
  , { name := "list_event_types", errPrefix := "Error listing event types" }
  , { name := "create_event", errPrefix := "Error creating event" }
  , { name := "get_event", errPrefix := "Error getting event" }
  , { name := "list_events", errPrefix := "Error listing events" }
  , { name := "update_event", errPrefix := "Error updating event" }
  , { name := "delete_event", errPrefix := "Error deleting event" }
  , { name := "add_attendee", errPrefix := "Error adding attendee" }
  , { name := "update_attendee_status", errPrefix := "Error updating attendee status" }
  , { name := "remove_attendee", errPrefix := "Error removing attendee" }
  , { name := "list_event_attendees", errPrefix := "Error listing attendees" }
  , { name := "create_reminder", errPrefix := "Error creating reminder" }
  , { name := "list_reminders", errPrefix := "Error listing reminders" }
  , { name := "mark_reminder_sent", errPrefix := "Error marking reminder as sent" }
  ]

/-! The orchestration engine (src/agent.ts). -/

/-- Message roles of the conversation transcript. -/
inductive Role where
  | user
  | assistant
  | tool
deriving DecidableEq, Repr

/-- A tool call requested by the reasoning service: a catalog name and an
argument mapping. -/
structure ToolCall where
  name : String
  args : List (String × String)
deriving DecidableEq, Repr

/-- A conversation message: role, content, and its sequence of requested tool
calls.  An assistant message produced by the model carries the requested
calls; user and tool-result messages carry none, which also models the JS
side where only AI messages expose a tool_calls array at all. -/
structure Message where
  role : Role
  content : String
  toolCalls : List ToolCall
deriving DecidableEq, Repr

/-- A pending conflict-check request (the pendingEventCheck channel of the
agent state in src/agent.ts). -/
structure ConflictReq where
  startTime : Int
  endTime : Int
  excludeEventId : Option Int
deriving DecidableEq, Repr

/-- The extended agent state of src/agent.ts: the appended message
transcript, the pendingEventCheck channel (replaced on write, default null)
and the conflictCheckResult channel (replaced on write, default null). -/
structure AgentState where
  messages : List Message
  pendingEventCheck : Option ConflictReq
  conflictCheckResult : Option String
deriving DecidableEq, Repr

/-- The nodes of the compiled workflow graph, plus the END sentinel. -/
inductive Node where
  | agent
  | tools
  | conflict_detector
  | terminal
deriving DecidableEq, Repr

/-- Whether a tool-call list contains a call named check_event_conflicts
(the some test inside shouldCheckConflicts in src/agent.ts). -/
def hasConflictCheckCall (tcs : List ToolCall) : Bool :=
  tcs.any fun tc => tc.name == "check_event_conflicts"

/-- shouldCheckConflicts in src/agent.ts, composed with the conditional-edge
mapping of the graph: inspect the last message of the state; when it exists
and its tool calls contain check_event_conflicts, route to conflict_detector,
otherwise route to continue, which the edge map sends to agent. -/
def shouldCheckConflicts (state : AgentState) : Node :=
  match state.messages.getLast? with
  | some lastMessage =>
      if hasConflictCheckCall lastMessage.toolCalls then Node.conflict_detector
      else Node.agent
  | none => Node.agent

/-- shouldContinue in src/agent.ts: inspect the last message; when it exists
and carries at least one tool call, route to tools, otherwise END. -/
def shouldContinue (state : AgentState) : Node :=
  match state.messages.getLast? with
  | some lastMessage =>
      if lastMessage.toolCalls.length > 0 then Node.tools else Node.terminal
  | none => Node.terminal

/-- callModel in src/agent.ts: invoke the model on the transcript and append
the returned message.  The external model is a parameter of the embedding. -/
def callModel (model : List Message → Message) (state : AgentState) : AgentState :=
  { state with messages := state.messages ++ [model state.messages] }

/-- Modelled from the spec: the tools node of src/agent.ts is the prebuilt
ToolNode of the graph library, whose code is not part of this repository.
Per the spec's Tool Dispatch contract it executes the tool calls requested by
the last (assistant) message and appends one tool-result message per
requested call; a tool-result message requests no further calls.  The tool
executor is a parameter of the embedding. -/
def toolNode (exec : ToolCall → String) (state : AgentState) : AgentState :=
  match state.messages.getLast? with
  | some lastMessage =>
      { state with
          messages := state.messages ++
            lastMessage.toolCalls.map fun tc =>
              { role := Role.tool, content := exec tc, toolCalls := [] } }
  | none => state

namespace Agent

/-- The conflict_detector node of src/agent.ts (its checkConflicts): when no
pendingEventCheck is set, write null to conflictCheckResult; otherwise invoke
the conflict-detection subgraph on the pending request, store the rendered
message into conflictCheckResult and clear the pending request. -/
def checkConflicts (store : List StoredEvent) (state : AgentState) : AgentState :=
  match state.pendingEventCheck with
  | none => { state with conflictCheckResult := none }
  | some pending =>
      let result := detectConflicts store pending.startTime pending.endTime
        pending.excludeEventId
      { state with
          conflictCheckResult := some result.message
          pendingEventCheck := none }

end Agent

/-- One step of the compiled workflow of src/agent.ts: run the node the
engine is at, then follow its (conditional) outgoing edge.  agent runs
callModel and routes via shouldContinue; tools runs the ToolNode and routes
via shouldCheckConflicts; conflict_detector runs its node and takes the
unconditional edge back to agent; END is absorbing. -/
def step (model : List Message → Message) (exec : ToolCall → String)
    (store : List StoredEvent) : Node → AgentState → Node × AgentState
  | Node.agent, state =>
      let s := callModel model state
      (shouldContinue s, s)
  | Node.tools, state =>
      let s := toolNode exec state
      (shouldCheckConflicts s, s)
  | Node.conflict_detector, state => (Node.agent, Agent.checkConflicts store state)
  | Node.terminal, state => (Node.terminal, state)

/-- A model oracle for a concrete engine run: it always requests exactly one
tool call, named check_event_conflicts, with candidate-range arguments. -/
def reqConflictModel : List Message → Message := fun _ =>
  { role := Role.assistant
    content := ""
    toolCalls := [ { name := "check_event_conflicts"
                     args := [("startTime", "2024-01-01T10:00"), ("endTime", "2024-01-01T11:00")] } ] }

/-- A tool executor for a concrete engine run: every dispatched call
succeeds with the no-conflicts text. -/
def okExec : ToolCall → String := fun _ => "✓ No conflicts found"

/-- An initial engine state for a concrete run: one user message, no pending
conflict check, no conflict result (the channel defaults of src/agent.ts). -/
def initialState : AgentState :=
  { messages := [{ role := Role.user, content := "am I free at 10?", toolCalls := [] }]
    pendingEventCheck := none
    conflictCheckResult := none }

/-! Theorems -/

lemma foldl_append_eq_specLines (l : List StoredEvent) (init : String) :
    l.foldl (fun acc ev => acc ++ renderConflictLine ev) init = init ++ specLines l := by
  induction l generalizing init with
  | nil => simp [specLines, String.append_empty]
  | cons ev rest ih =>
      simp only [List.foldl_cons, specLines, ih, String.append_assoc]

lemma callModel_getLast (model : List Message → Message) (state : AgentState) :
    (callModel model state).messages.getLast? = some (model state.messages) := by
  simp [callModel, List.getLast?_concat]

lemma shouldCheckConflicts_toolNode (exec : ToolCall → String) (state : AgentState) :
    shouldCheckConflicts (toolNode exec state) = Node.agent := by
  cases h : state.messages.getLast? with
  | none => simp [toolNode, h, shouldCheckConflicts]
  | some m =>
      cases hm : m.toolCalls with
      | nil => simp [toolNode, h, hm, shouldCheckConflicts, hasConflictCheckCall]
      | cons tc rest =>
          have hne : (m.toolCalls.map fun tc =>
              ({ role := Role.tool, content := exec tc, toolCalls := [] } : Message)) ≠ [] := by
            simp [hm]
          have hlast :
              (state.messages ++ m.toolCalls.map fun tc =>
                ({ role := Role.tool, content := exec tc, toolCalls := [] } : Message)).getLast?
              = (m.toolCalls.map fun tc =>
                ({ role := Role.tool, content := exec tc, toolCalls := [] } : Message)).getLast? :=
            List.getLast?_append_of_ne_nil state.messages hne
          cases hg : (m.toolCalls.map fun tc =>
              ({ role := Role.tool, content := exec tc, toolCalls := [] } : Message)).getLast? with
          | none => exact absurd (List.getLast?_eq_none_iff.mp hg) hne
          | some x =>
              have hx : x ∈ m.toolCalls.map fun tc =>
                  ({ role := Role.tool, content := exec tc, toolCalls := [] } : Message) := by
                obtain ⟨hne', rfl⟩ := List.mem_getLast?_eq_getLast hg
                exact List.getLast_mem hne'
              obtain ⟨tc', _, rfl⟩ := List.mem_map.mp hx
              simp [toolNode, h, shouldCheckConflicts, hlast, hg, hasConflictCheckCall]

/-- C1: for every stored event E and candidate range with no exclusion id
supplied, the overlap query's result contains E exactly when E.endTime ≥ the
candidate start and E.startTime ≤ the candidate end; in particular touching
boundaries (E.endTime = start, or E.startTime = end) count as conflicts. -/
theorem findOverlapping_mem_iff (store : List StoredEvent) (s e : Int)
    (ev : StoredEvent) (h : ev ∈ store) :
    ev ∈ findOverlapping store s e none ↔ (ev.endTime ≥ s ∧ ev.startTime ≤ e) := by
  simp [findOverlapping, overlapCond, jsTruthy, List.mem_filter, h]

/-- C1 witness: the touching event A = [10, 11] is reported as overlapping
the candidate range [11, 12] (A.endTime equals the candidate start). -/
theorem findOverlapping_mem_iff_witness :
    (⟨1, "A", 10, 11, none⟩ : StoredEvent) ∈
      findOverlapping [⟨1, "A", 10, 11, none⟩] 11 12 none :=
  (findOverlapping_mem_iff [⟨1, "A", 10, 11, none⟩] 11 12 ⟨1, "A", 10, 11, none⟩
    (by decide)).mpr (by decide)

/-- C2: after the tools node executes, the engine always routes back to the
agent node — also when the dispatched call set contained
check_event_conflicts — because the router inspects the last message of the
post-dispatch transcript, which is a tool-result message carrying no tool
calls.  The conflict_detector node is therefore unreachable from tools. -/
theorem step_tools_always_routes_to_agent (model : List Message → Message)
    (exec : ToolCall → String) (store : List StoredEvent) (state : AgentState) :
    (step model exec store Node.tools state).1 = Node.agent := by
  simp [step, shouldCheckConflicts_toolNode]

/-- C3: a concrete turn in which the model requests exactly one
check_event_conflicts call: the agent step routes to tools, the tools step
routes back to agent (not to conflict_detector), and at every point the
pendingEventCheck channel is still unset and the conflictCheckResult channel
still null — no code of the repository ever populates the pending request. -/
theorem pending_check_never_populated :
    (step reqConflictModel okExec [] Node.agent initialState).1 = Node.tools ∧
    (step reqConflictModel okExec [] Node.agent initialState).2.pendingEventCheck = none ∧
    (step reqConflictModel okExec []
      (step reqConflictModel okExec [] Node.agent initialState).1
      (step reqConflictModel okExec [] Node.agent initialState).2).1 = Node.agent ∧
    (step reqConflictModel okExec []
      (step reqConflictModel okExec [] Node.agent initialState).1
      (step reqConflictModel okExec [] Node.agent initialState).2).2.pendingEventCheck = none ∧
    (step reqConflictModel okExec []
      (step reqConflictModel okExec [] Node.agent initialState).1
      (step reqConflictModel okExec [] Node.agent initialState).2).2.conflictCheckResult = none :=
  ⟨rfl, rfl, rfl, rfl, rfl⟩

/-- C4 as stated is false on the code: the exclusion branch tests the
exclusion id for JavaScript truthiness, so a supplied exclusion id of 0 is
ignored and an overlapping event whose id is 0 stays in the result even
though its id equals the supplied exclusion id. -/
theorem excludeId_zero_not_excluded :
    (⟨0, "Zero", 0, 1, none⟩ : StoredEvent) ∈
        findOverlapping [⟨0, "Zero", 0, 1, none⟩] 0 1 (some 0) ∧
      (⟨0, "Zero", 0, 1, none⟩ : StoredEvent).id = 0 := by
  decide

/-- C4 amended: for every non-zero supplied exclusion id, no event of the
overlap query's result has that id, regardless of overlap. -/
theorem findOverlapping_excludes (store : List StoredEvent) (s e : Int) (n : Int)
    (hn : n ≠ 0) (ev : StoredEvent) (hev : ev ∈ findOverlapping store s e (some n)) :
    ev.id ≠ n := by
  simp only [findOverlapping, List.mem_filter, overlapCond, jsTruthy,
    Option.getD_some, bne_iff_ne, ne_eq, hn, not_false_eq_true, if_true,
    Bool.and_eq_true, decide_eq_true_eq] at hev
  exact hev.2.2

/-- C4 amended witness: with exclusion id 1 supplied, an overlapping event of
id 2 is in the result and its id differs from the exclusion id. -/
theorem findOverlapping_excludes_witness :
    (⟨2, "B", 0, 1, none⟩ : StoredEvent).id ≠ 1 :=
  findOverlapping_excludes [⟨1, "A", 0, 1, none⟩, ⟨2, "B", 0, 1, none⟩] 0 1 1
    (by decide) ⟨2, "B", 0, 1, none⟩ (by decide)

/-- C5: the agent step reaches END exactly when the produced message carries
no tool calls, and routes to tools otherwise; neither the tools step nor the
conflict_detector step ever reaches END. -/
theorem terminal_only_from_agent (model : List Message → Message)
    (exec : ToolCall → String) (store : List StoredEvent) (state : AgentState) :
    ((step model exec store Node.agent state).1 =
        if (model state.messages).toolCalls = [] then Node.terminal else Node.tools) ∧
      (step model exec store Node.tools state).1 ≠ Node.terminal ∧
      (step model exec store Node.conflict_detector state).1 ≠ Node.terminal := by
  refine ⟨?_, ?_, ?_⟩
  · have hlast := callModel_getLast model state
    cases h : (model state.messages).toolCalls with
    | nil => simp [step, shouldContinue, hlast, h]
    | cons tc rest => simp [step, shouldContinue, hlast, h]
  · simp [step, shouldCheckConflicts_toolNode]
  · simp [step]

/-- C6: the engine's conflict_detector node on a populated pending request
stores exactly the text the check_event_conflicts tool returns for the same
candidate start, end and exclusion id against the same stored events — both
paths run the same detectConflicts invocation. -/
theorem conflict_paths_agree (store : List StoredEvent) (req : ConflictReq)
    (msgs : List Message) (res : Option String) :
    (Agent.checkConflicts store
        { messages := msgs, pendingEventCheck := some req, conflictCheckResult := res }
      ).conflictCheckResult
      = some (checkEventConflictsTool store req.startTime req.endTime req.excludeEventId) :=
  rfl

/-- C7: the rendered message is the fixed no-conflicts text exactly when the
conflict list is empty, and otherwise the count-prefixed header followed by
the enumeration of the conflicting events, one rendered line per event. -/
theorem conflict_message_shape (store : List StoredEvent) (s e : Int) (ex : Option Int) :
    (Conflict.checkConflicts store s e ex).message =
      if (Conflict.checkConflicts store s e ex).conflicts = [] then "✓ No conflicts found"
      else conflictHeader (Conflict.checkConflicts store s e ex).conflicts.length ++
        specLines (Conflict.checkConflicts store s e ex).conflicts := by
  unfold Conflict.checkConflicts
  cases h : findOverlapping store s e ex with
  | nil => simp [h]
  | cons a l => simp [h, foldl_append_eq_specLines, specLines, String.append_assoc]

/-- C8: for every tool of the exported catalog, a failure thrown inside the
tool body is caught at the boundary and returned as the tool's prefixed
textual error message — the boundary's result is a plain string, so no
invocation propagates a fault past Tool Dispatch. -/
theorem tool_failure_caught (t : ToolDef) (ht : t ∈ allTools) (err : Option String) :
    runToolBoundary t (Except.error err) = t.errPrefix ++ ": " ++ errorText err :=
  rfl

/-- C8 witness: a thrown database failure inside check_event_conflicts comes
back as its textual error result. -/
theorem tool_failure_caught_witness :
    runToolBoundary
        { name := "check_event_conflicts", errPrefix := "Error checking conflicts" }
        (Except.error (some "connection refused"))
      = "Error checking conflicts: connection refused" :=
  tool_failure_caught
    { name := "check_event_conflicts", errPrefix := "Error checking conflicts" }
    (by decide) (some "connection refused")

/-- C9: invoking the conflict subroutine twice with identical arguments, the
second time against the storage the first invocation leaves behind (the
check only reads, so storage is unchanged), yields an identical result —
same conflicts, same hasConflicts flag, same rendered message. -/
theorem detectConflicts_idempotent (store : List StoredEvent) (s e : Int)
    (ex : Option Int) :
    (detectConflictsRun (detectConflictsRun store s e ex).2 s e ex).1 =
      (detectConflictsRun store s e ex).1 :=
  rfl

/-- C10: the hasConflicts flag of the conflict subroutine's result is true
exactly when its conflict list is non-empty. -/
theorem hasConflicts_iff_nonempty (store : List StoredEvent) (s e : Int)
    (ex : Option Int) :
    (Conflict.checkConflicts store s e ex).hasConflicts = true ↔
      (Conflict.checkConflicts store s e ex).conflicts ≠ [] := by
  unfold Conflict.checkConflicts
  simp [List.length_pos]

end KvCal
